import Mathlib

/-!
A shallow embedding of the favicon editor's position / mutation / undo
engine.  The repository's key-dispatch loop (`main.go`) is present in the
sources and each key handler below is translated from it line by line.
The `Editor`, `Position` and `Undo` method implementations live in source
files that are not part of this snapshot, so those primitives carry a
`Modelled from the spec:` doc comment and follow the specification's
description of them.  Data coordinates `(dataY, dataX)` are authoritative
(spec section 9); a line is a sequence of runes.
-/

namespace Favicon

/-- A line of the document: a sequence of runes. -/
abbrev Line := List Char

/-- Editor state: the document (an ordered sequence of lines) together
with the data coordinates of the cursor.  Spec section 3: data
coordinates `(dataY, dataX)` are the authoritative cursor location;
screen coordinates are derived from them on demand. -/
structure Editor where
  lines : List Line
  dataY : Nat
  dataX : Nat
deriving DecidableEq

/-- Insert an element at position `n` of a list (used for inserting blank
lines above/below the current one). -/
def listInsertAt {α : Type} (n : Nat) (a : α) (l : List α) : List α :=
  l.take n ++ a :: l.drop n

/-- Modelled from the spec: right-trim of a line (`TrimRight` is not in
the snapshot).  Spec section 3: trailing whitespace is trimmed on
structural edits. -/
def trimRightLine (l : Line) : Line :=
  (l.reverse.dropWhile Char.isWhitespace).reverse

/-- Modelled from the spec: both-sides trim of a line
(`strings.TrimSpace` applied to a line's contents). -/
def trimLine (l : Line) : Line :=
  trimRightLine (l.dropWhile Char.isWhitespace)

/-- Modelled from the spec: the leading whitespace of a line
(`LeadingWhitespace` is not in the snapshot). -/
def leadingWhitespace (l : Line) : Line :=
  l.takeWhile Char.isWhitespace

/-- Default spaces per tab (`spacesPerTab = 4` in `main.go`). -/
def spacesPerTab : Nat := 4

/-- Modelled from the spec: screen-column accumulator.  Spec section 4.1:
a tab advances the screen column to the next multiple of the tab width,
every other rune advances it by one. -/
def screenColAux : Line → Nat → Nat
  | [], acc => acc
  | c :: rest, acc =>
      screenColAux rest
        (if c = '\t' then acc + (spacesPerTab - acc % spacesPerTab) else acc + 1)

/-- Modelled from the spec: the current line of the document
(`CurrentLine` is not in the snapshot). -/
def Editor.currentLine (e : Editor) : Line := e.lines.getD e.dataY []

/-- Modelled from the spec: the screen column of the cursor
(`pos.ScreenX`/`pos.sx`), obtained by expanding the line prefix before
`dataX` with tab stops. -/
def Editor.screenX (e : Editor) : Nat :=
  screenColAux (e.currentLine.take e.dataX) 0

/-- Modelled from the spec: replace line `y` of the document (`SetLine`
is not in the snapshot). -/
def Editor.setLineAt (e : Editor) (y : Nat) (l : Line) : Editor :=
  { e with lines := e.lines.set y l }

/-- Modelled from the spec: `TrimRight(y)` right-trims line `y`. -/
def Editor.trimRight (e : Editor) (y : Nat) : Editor :=
  e.setLineAt y (trimRightLine (e.lines.getD y []))

/-- Modelled from the spec: `Prev` moves one rune left within the line
and does not wrap to the previous line (spec section 4.3). -/
def Editor.prev (e : Editor) : Editor := { e with dataX := e.dataX - 1 }

/-- Modelled from the spec: `Next` moves one rune right within the line
and does not wrap to the next line (spec section 4.3). -/
def Editor.next (e : Editor) : Editor :=
  if e.dataX < e.currentLine.length then { e with dataX := e.dataX + 1 } else e

/-- Modelled from the spec: the primitive `Home` moves to start of line,
column 0 (spec section 4.3, "start-of-line is column 0"). -/
def Editor.home (e : Editor) : Editor := { e with dataX := 0 }

/-- Modelled from the spec: `End` goes to one-past-the-last-rune of the
line (spec section 4.3).  Named `endOfLine` because `end` is reserved. -/
def Editor.endOfLine (e : Editor) : Editor :=
  { e with dataX := e.currentLine.length }

/-- Modelled from the spec: `pos.Up` moves one line up, staying put at
the first line. -/
def Editor.up (e : Editor) : Editor := { e with dataY := e.dataY - 1 }

/-- Modelled from the spec: `Down`/`pos.Down` moves one line down,
staying put at the last line (viewport scrolling is not part of the
document/cursor state). -/
def Editor.down (e : Editor) : Editor :=
  if e.dataY + 1 < e.lines.length then { e with dataY := e.dataY + 1 } else e

/-- Modelled from the spec: `InsertLineAbove` inserts a blank line at the
current line index, shifting the rest down. -/
def Editor.insertLineAbove (e : Editor) : Editor :=
  { e with lines := listInsertAt e.dataY [] e.lines }

/-- Modelled from the spec: `InsertLineBelow` inserts a blank line just
below the current line. -/
def Editor.insertLineBelow (e : Editor) : Editor :=
  { e with lines := listInsertAt (e.dataY + 1) [] e.lines }

/-- Modelled from the spec: `DeleteLine(y)` removes line `y`; the
document is never left with zero lines (spec section 3 invariant: an
empty document is exactly one empty line). -/
def Editor.deleteLine (e : Editor) (y : Nat) : Editor :=
  { e with lines := if e.lines.eraseIdx y = [] then [[]] else e.lines.eraseIdx y }

/-- Modelled from the spec: `InsertRune` inserts a rune at `dataX`,
shifting the tail of the line right; `dataX` is self-clamped to a valid
range before acting (spec section 4.4 edge policy).  The cursor itself is
moved separately by `Next`. -/
def Editor.insertRune (e : Editor) (r : Char) : Editor :=
  e.setLineAt e.dataY
    (e.currentLine.take (min e.dataX e.currentLine.length) ++
      r :: e.currentLine.drop (min e.dataX e.currentLine.length))

/-- Modelled from the spec: `SetRune` overwrites the cell at the cursor
in place; the cursor does not move (spec section 4.4). -/
def Editor.setRune (e : Editor) (r : Char) : Editor :=
  e.setLineAt e.dataY (e.currentLine.set e.dataX r)

/-- Modelled from the spec: at or after the distinguished end-of-line
position `len(line)` (spec sections 4.1 and 4.4, branches (c)/(d):
"at/after end-of-line"). -/
abbrev Editor.atOrAfterEndOfLine (e : Editor) : Prop :=
  e.currentLine.length ≤ e.dataX

/-- Modelled from the spec: the cursor is on the last document line. -/
abbrev Editor.atLastLineOfDocument (e : Editor) : Prop :=
  e.dataY + 1 = e.lines.length

/-- Modelled from the spec: `Delete` removes the rune under the cursor;
at or past end-of-line it joins the current line with the next one
(spec section 4.4, backspace branch two: "delete-forward (joins
lines)"). -/
def Editor.delete (e : Editor) : Editor :=
  if e.currentLine.length ≤ e.dataX then
    match e.lines.drop (e.dataY + 1) with
    | [] => e
    | nxt :: _ =>
        { e with lines :=
            e.lines.take e.dataY ++ (e.currentLine ++ nxt) :: e.lines.drop (e.dataY + 2) }
  else
    e.setLineAt e.dataY (e.currentLine.eraseIdx e.dataX)

/-- Insert a sequence of runes one by one, moving right after each, as
the `Return` handler does for the inherited leading whitespace
(`main.go`: the `for _, r := range leadingWhitespace` loops). -/
def Editor.insertRunes (e : Editor) (l : Line) : Editor :=
  l.foldl (fun acc r => (acc.insertRune r).next) e

/-- The trimmed line ends with an opening bracket: the "smart
indentation" trigger of the `Return` handler (`main.go` lines 454 and
473). -/
abbrev opensBracket (l : Line) : Prop :=
  l.getLast? = some '(' ∨ l.getLast? = some '{' ∨ l.getLast? = some '['

/-- Modelled from the spec: `SplitLine` splits the current line at
`dataX` into two lines (spec section 4.4, branch (e)); `dataX` is
self-clamped. -/
def Editor.splitLine (e : Editor) : Editor :=
  let l := e.currentLine
  let x := min e.dataX l.length
  { e with lines := e.lines.take e.dataY ++ l.take x :: l.drop x :: e.lines.drop (e.dataY + 1) }

/-- The `Return` key handler in text mode, translated from `main.go`
lines 433-510: right-trim the current line, then branch five ways on the
cursor context; `AtStartOfLine`, `AtOrBeforeStartOfTextLine`,
`AtOrAfterEndOfLine` and `AfterEndOfLine` are modelled from the spec's
branch descriptions (a)-(e) in section 4.4 (branch (d) is "at/after
end-of-line elsewhere"). -/
def Editor.returnKey (e0 : Editor) : Editor :=
  let e := e0.trimRight e0.dataY
  let lineContents := e.currentLine
  let stx := (leadingWhitespace lineContents).length
  let lw0 := leadingWhitespace lineContents
  let lw := if lineContents ≠ [] ∧ opensBracket lineContents then lw0 ++ ['\t'] else lw0
  if e.dataX = 0 then
    e.insertLineAbove.down.home
  else if e.dataX ≤ stx then
    e.insertLineAbove.down
  else if e.atOrAfterEndOfLine ∧ e.atLastLineOfDocument then
    (e.insertLineBelow.down.home).insertRunes lw
  else if e.atOrAfterEndOfLine then
    (e.insertLineBelow.down.home).insertRunes lw
  else
    e.splitLine.down.home

/-- The backspace handler in text mode, translated from `main.go` lines
511-537: empty line is deleted (move up, trim, go to end); at start of a
non-empty line the handler joins with the previous line, but only when
`dataY > 0`; otherwise move back, blank the cell and delete it when not
at/after end-of-line. -/
def Editor.backspaceKey (e : Editor) : Editor :=
  if e.currentLine = [] then
    let e1 := (e.deleteLine e.dataY).up
    (e1.trimRight e1.dataY).endOfLine
  else if e.dataX = 0 then
    if 0 < e.dataY then
      let e1 := e.up.endOfLine
      (e1.trimRight e1.dataY).delete
    else e
  else
    let e1 := (e.prev).setRune ' '
    if e1.atOrAfterEndOfLine then e1 else e1.delete

/-- The ctrl-a (Home) handler, translated from `main.go` lines 556-577
with `justMovedUpOrDown = false` (the previous key was not an arrow):
an empty right-trimmed line goes up and to the end; column 0 goes up and
to the end; at start-of-text it goes to start-of-line; otherwise it goes
to start-of-text.  `EmptyRightTrimmedLine`, `AtStartOfTextLine` and
`GoToStartOfTextLine` are modelled from the spec (section 4.3). -/
def Editor.ctrlA (e : Editor) : Editor :=
  if trimRightLine e.currentLine = [] then
    e.up.endOfLine
  else if e.dataX = 0 then
    e.up.endOfLine
  else if e.dataX = (leadingWhitespace e.currentLine).length then
    e.home
  else
    { e with dataX := (leadingWhitespace e.currentLine).length }

/-- Modelled from the spec: `DeleteRestOfLine` truncates the current line
at `dataX` (spec section 4.4 delete-to-end-of-line row). -/
def Editor.deleteRestOfLine (e : Editor) : Editor :=
  e.setLineAt e.dataY (e.currentLine.take e.dataX)

/-- Modelled from the spec: `Empty()` - the document holds no content at
all (the "Empty" status branch of the ctrl-k and ctrl-d handlers). -/
abbrev Editor.emptyDocument (e : Editor) : Prop := ∀ l ∈ e.lines, l = []

/-- The ctrl-k (delete to end of line) handler in text mode, translated
from `main.go` lines 670-689: truncate the line at the cursor; when the
right-trimmed result is empty, delete the whole line and re-clamp the
cursor to the end of the line that took its place. -/
def Editor.ctrlK (e : Editor) : Editor :=
  if e.emptyDocument then e
  else if trimRightLine (e.deleteRestOfLine).currentLine = [] then
    if ((e.deleteRestOfLine).deleteLine (e.deleteRestOfLine).dataY).atOrAfterEndOfLine then
      ((e.deleteRestOfLine).deleteLine (e.deleteRestOfLine).dataY).endOfLine
    else (e.deleteRestOfLine).deleteLine (e.deleteRestOfLine).dataY
  else e.deleteRestOfLine

/-- The letter-key handler in text mode, translated from `main.go` lines
732-753: the special case `key == "K"` first inserts an `'O'` and moves
right, and then the ordinary insertion of the typed rune follows. -/
def Editor.typeLetter (e : Editor) (key : Char) : Editor :=
  if key = 'K' then
    ((((e.insertRune 'O').next).insertRune 'K')).next
  else
    (e.insertRune key).next

/-- The graphic-rune handler in text mode, translated from `main.go`
lines 754-786: for a closing bracket typed on an empty-but-indented line
(screen column positive, trimmed contents empty, leading whitespace
present) the cursor steps back one column and the line is right-trimmed
before the rune is inserted. -/
def Editor.typeGraphic (e : Editor) (r : Char) : Editor :=
  if (r = '}' ∨ r = ']' ∨ r = ')') ∧
      0 < e.screenX ∧ trimLine e.currentLine = [] ∧ leadingWhitespace e.currentLine ≠ [] then
    (((e.prev).trimRight (e.prev).dataY).insertRune r).next
  else
    (e.insertRune r).next

/-- Modelled from the spec: the Undo Stack, a bounded-capacity
last-in-first-out store of full editor snapshots (spec sections 3 and
4.5); `NewUndo`, `Snapshot` and `Restore` are not in the snapshot.  The
stack is kept most-recent-first. -/
structure Undo where
  maxLen : Nat
  stack : List Editor
deriving DecidableEq

/-- Modelled from the spec: `NewUndo(n)` creates an empty undo stack of
capacity `n` (`main.go` line 216 uses `NewUndo(8192)`). -/
def NewUndo (n : Nat) : Undo := ⟨n, []⟩

/-- Modelled from the spec: `Snapshot` pushes a deep copy of the state;
past capacity the oldest entry is discarded (spec section 4.5). -/
def Undo.snapshot (u : Undo) (e : Editor) : Undo :=
  { u with stack := (e :: u.stack).take u.maxLen }

/-- Modelled from the spec: `Restore` pops and returns the most recent
snapshot, and fails (`none`, the no-history condition) when the stack is
empty (spec section 4.5). -/
def Undo.restore (u : Undo) : Option (Editor × Undo) :=
  match u.stack with
  | [] => none
  | e :: rest => some (e, { u with stack := rest })

/-- The ctrl-u (undo) handler, translated from `main.go` lines 625-636:
on a failed `Restore` the editor state is left alone and the non-fatal
status message "No more to undo" is shown; on success the popped state
replaces the editor state. -/
def ctrlU (u : Undo) (e : Editor) : Editor × Undo × Option String :=
  match u.restore with
  | none => (e, u, some "No more to undo")
  | some (e2, u2) => (e2, u2, none)

/-- Push a whole sequence of snapshots, oldest first, onto a fresh
`NewUndo 8192` stack (the capacity used by `main.go`). -/
def snapshotAll (l : List Editor) : Undo :=
  l.foldl Undo.snapshot (NewUndo 8192)

/-- Modelled from the spec: the largest legal scroll offset,
`max(0, len(Document) - height)` (spec section 4.2); `Nat` subtraction
already truncates at zero. -/
def scrollMax (docLen height : Nat) : Nat := docLen - height

/-- Modelled from the spec: `ScrollDown(n)` shifts the scroll offset by
`n` lines, clamped to `[0, max(0, len(Document) - height)]`, and returns
whether the offset actually changed (spec section 4.2). -/
def scrollDown (scrollOffset docLen height n : Nat) : Nat × Bool :=
  let o := min (scrollOffset + n) (scrollMax docLen height)
  (o, decide (o ≠ scrollOffset))

/-- The ctrl-n (scroll down) handler, translated from `main.go` lines
396-408: when `ScrollDown` reports no change the caller surfaces the
"EOF" status message. -/
def ctrlN (scrollOffset docLen height n : Nat) : Nat × Option String :=
  let r := scrollDown scrollOffset docLen height n
  (r.1, if r.2 then none else some "EOF")

/-- The editor foreground colors involved in the read-only marking
(`main.go` lines 29 and 179). -/
inductive Color where
  | lightGreen
  | red
deriving DecidableEq

/-- The observable outcome of loading an existing file: the status
message, the editor foreground color, and whether the process was
terminated fatally. -/
structure LoadOutcome where
  statusMessage : String
  fg : Color
  quitFatal : Bool
deriving DecidableEq

/-- The status message built right after a successful load (`main.go`
lines 167-171). -/
def loadedStatus (filename warning : String) (emptyDoc : Bool) : String :=
  if emptyDoc then "Loaded empty file: " ++ filename ++ warning
  else "Loaded " ++ filename ++ warning

/-- The load sequence for an existing file, translated from `main.go`
lines 154-186: after a successful load, a test write probes whether the
file can be opened for writing; on failure the status message gets the
" (read only)" mark, the foreground turns red, the screen is redrawn and
the session carries on (no `quitError`). -/
def loadExisting (filename warning : String) (emptyDoc canWrite : Bool) : LoadOutcome :=
  if canWrite then ⟨loadedStatus filename warning emptyDoc, Color.lightGreen, false⟩
  else ⟨loadedStatus filename warning emptyDoc ++ " (read only)", Color.red, false⟩

/-- `getD` at an index that was just overwritten returns the new value. -/
theorem getD_set_self {α : Type} (l : List α) (n : Nat) (a d : α) (h : n < l.length) :
    (l.set n a).getD n d = a := by
  rw [List.getD_eq_getElem?_getD, List.getElem?_set_self h]
  rfl

/-- `getD` with default `[]` over a document whose lines are all empty is
empty. -/
theorem getD_eq_nil_of_all_nil {l : List Line} (h : ∀ x ∈ l, x = []) (n : Nat) :
    l.getD n [] = [] := by
  by_cases hn : n < l.length
  · rw [List.getD_eq_getElem?_getD, List.getElem?_eq_getElem hn]
    exact h _ (List.getElem_mem hn)
  · rw [List.getD_eq_getElem?_getD, List.getElem?_eq_none (Nat.le_of_not_lt hn)]
    rfl

/-- Taking `n` of an already-`n`-truncated suffix is the same as taking
`n` of the untruncated one. -/
theorem take_absorb {α : Type} (n : Nat) (x y : List α) :
    (x ++ y.take n).take n = (x ++ y).take n := by
  rw [List.take_append_eq_append_take, List.take_append_eq_append_take, List.take_take,
    Nat.min_eq_left (Nat.sub_le n x.length)]

/-- `next` never changes the document. -/
theorem Editor.next_lines (e : Editor) : e.next.lines = e.lines := by
  unfold Editor.next
  split <;> rfl

/-- `next` with the cursor strictly inside the line steps one rune
right. -/
theorem next_of_lt (e : Editor) (h : e.dataX < e.currentLine.length) :
    e.next = { e with dataX := e.dataX + 1 } := by
  unfold Editor.next
  rw [if_pos h]

/-- Taking one past an exactly-covering prefix keeps the head of the
suffix. -/
theorem take_append_cons {α : Type} (A B : List α) (r : α) :
    (A ++ r :: B).take (A.length + 1) = A ++ [r] := by
  rw [List.take_append_eq_append_take]
  simp [List.take_of_length_le (Nat.le_succ A.length)]

/-- Dropping one past an exactly-covering prefix removes the head of the
suffix. -/
theorem drop_append_cons {α : Type} (A B : List α) (r : α) :
    (A ++ r :: B).drop (A.length + 1) = B := by
  rw [List.drop_append_eq_append_drop]
  simp [List.drop_eq_nil_of_le (Nat.le_succ A.length)]

/-- Inserting `s` one to the right of a freshly inserted `r` yields both
runes adjacent, in order. -/
theorem insert_twice {l : List Char} {x : Nat} (hx : x ≤ l.length) (r s : Char) :
    ((l.take x ++ r :: l.drop x).take (x + 1)) ++
        s :: ((l.take x ++ r :: l.drop x).drop (x + 1)) =
      l.take x ++ r :: s :: l.drop x := by
  have hlen : (l.take x).length = x := List.length_take_of_le hx
  rw [show x + 1 = (l.take x).length + 1 from by rw [hlen]]
  rw [take_append_cons, drop_append_cons]
  simp

/-- `insertRune` followed by `Next`, at a valid cursor position, inserts
at `dataX` and advances the cursor by one. -/
theorem insertRune_next_spec (e : Editor) (r : Char)
    (hy : e.dataY < e.lines.length) (hx : e.dataX ≤ e.currentLine.length) :
    (e.insertRune r).next =
      ⟨e.lines.set e.dataY (e.currentLine.take e.dataX ++ r :: e.currentLine.drop e.dataX),
        e.dataY, e.dataX + 1⟩ := by
  have hmin : min e.dataX e.currentLine.length = e.dataX := Nat.min_eq_left hx
  have hins : e.insertRune r =
      ⟨e.lines.set e.dataY (e.currentLine.take e.dataX ++ r :: e.currentLine.drop e.dataX),
        e.dataY, e.dataX⟩ := by
    unfold Editor.insertRune Editor.setLineAt
    rw [hmin]
  rw [hins]
  have hcur : (⟨e.lines.set e.dataY
        (e.currentLine.take e.dataX ++ r :: e.currentLine.drop e.dataX),
        e.dataY, e.dataX⟩ : Editor).currentLine =
      e.currentLine.take e.dataX ++ r :: e.currentLine.drop e.dataX := by
    unfold Editor.currentLine
    exact getD_set_self _ _ _ _ hy
  rw [next_of_lt _ (by rw [hcur]; simp [List.length_take_of_le hx])]

/-- One `Snapshot` fold step at a time: pushing a whole sequence keeps
the newest `maxLen` snapshots, most recent first. -/
theorem snapshot_foldl (l : List Editor) (u : Undo) (h : u.stack.length ≤ u.maxLen) :
    (l.foldl Undo.snapshot u).stack = (l.reverse ++ u.stack).take u.maxLen := by
  induction l generalizing u with
  | nil => simpa using (List.take_of_length_le h).symm
  | cons a t ih =>
      have hlen : (u.snapshot a).stack.length ≤ (u.snapshot a).maxLen := by
        simp only [Undo.snapshot, List.length_take]
        omega
      have hstep := ih (u.snapshot a) hlen
      simp only [List.foldl_cons]
      rw [hstep]
      simp only [Undo.snapshot]
      rw [take_absorb]
      simp [List.append_assoc]

/-- C1: in text mode, with Document `["abc", "def"]` and the cursor at
data position `(0,3)` (end of "abc", no trailing opening bracket),
`Return` produces `["abc", "", "def"]` with the cursor at `(1,0)`. -/
theorem C1_return_end_of_line :
    Editor.returnKey ⟨[['a','b','c'], ['d','e','f']], 0, 3⟩ =
      ⟨[['a','b','c'], [], ['d','e','f']], 1, 0⟩ := by
  decide

/-- C3: `Restore` on a freshly created (empty) undo stack fails with the
no-history condition, surfaces the non-fatal "No more to undo" status
message, and leaves the editor state (Document and Position) unchanged. -/
theorem C3_restore_empty_no_history (e : Editor) (n : Nat) :
    ctrlU (NewUndo n) e = (e, NewUndo n, some "No more to undo") := rfl

/-- C2: the Undo Stack never holds more than 8192 snapshots; for every
sequence of `Snapshot` calls pushed onto a fresh `NewUndo 8192` stack,
the stack holds exactly the newest 8192 snapshots in most-recent-first
order (so once the stack is full a further `Snapshot` evicts the oldest
entry), ready for `Restore`. -/
theorem C2_undo_bounded_ring (l : List Editor) :
    (snapshotAll l).stack = l.reverse.take 8192 ∧ (snapshotAll l).stack.length ≤ 8192 := by
  have h := snapshot_foldl l (NewUndo 8192) (by simp [NewUndo])
  have hs : (snapshotAll l).stack = l.reverse.take 8192 := by
    simpa [NewUndo] using h
  refine ⟨hs, ?_⟩
  rw [hs]
  simp only [List.length_take]
  omega

/-- C4 counterexample: with Document `["", "x"]` and the cursor at
`(0,0)` the first line is empty, so backspace deletes it and moves the
cursor to the end of the surviving line - the Document and Position both
change, refuting "Backspace at `(0,0)` is a no-op for every
Document". -/
theorem C4_counterexample :
    Editor.backspaceKey ⟨[[], ['x']], 0, 0⟩ = ⟨[['x']], 0, 1⟩ ∧
      Editor.backspaceKey ⟨[[], ['x']], 0, 0⟩ ≠ ⟨[[], ['x']], 0, 0⟩ := by
  decide

/-- C4 (amended): for every Document whose first line is non-blank
(non-empty after right-trimming), Backspace with the cursor at data
position `(0,0)` is a no-op - the Document and the Position are both
unchanged. -/
theorem C4_backspace_noop (e : Editor) (hy : e.dataY = 0) (hx : e.dataX = 0)
    (hne : trimRightLine e.currentLine ≠ []) : e.backspaceKey = e := by
  have hcur : ¬ e.currentLine = [] := by
    intro h
    exact hne (by rw [h]; rfl)
  unfold Editor.backspaceKey
  rw [if_neg hcur, if_pos hx, if_neg (by omega)]

/-- C4 (amended) witness: on the Document `["a"]`, backspace at `(0,0)`
changes nothing. -/
theorem C4_backspace_noop_witness :
    Editor.backspaceKey ⟨[['a']], 0, 0⟩ = ⟨[['a']], 0, 0⟩ :=
  C4_backspace_noop ⟨[['a']], 0, 0⟩ rfl rfl (by decide)

/-- C5 counterexample: on Document `["ab", ""]` with the cursor at
`(1,0)`, the first ctrl-a lands at the end of "ab" (`(0,2)`) and a
second ctrl-a moves on to `(0,0)`, so applying the Home operation twice
differs from applying it once. -/
theorem C5_counterexample :
    Editor.ctrlA (Editor.ctrlA ⟨[['a','b'], []], 1, 0⟩) ≠
      Editor.ctrlA ⟨[['a','b'], []], 1, 0⟩ := by
  decide

/-- C5 (amended): the primitive `Home` (go to start of line, column 0)
is idempotent, and the full ctrl-a handler never changes the Document;
the ctrl-a cursor motion itself is not idempotent - it cycles between
start-of-text, start-of-line and the previous line's end. -/
theorem C5_home_idempotent_amended (e : Editor) :
    (e.home).home = e.home ∧ (e.ctrlA).lines = e.lines := by
  refine ⟨rfl, ?_⟩
  unfold Editor.ctrlA
  repeat first
  | rfl
  | split

/-- C8: `ScrollDown(n)` moves the scroll offset to `offset + n` clamped
into `[0, max(0, docLen - height)]`; once the offset sits at that
maximum, a further call returns `false`, leaves the offset pinned there,
and the ctrl-n handler surfaces the "EOF" status message. -/
theorem C8_scrollDown_pinned (scrollOffset docLen height n : Nat) :
    (scrollDown scrollOffset docLen height n).1 =
        min (scrollOffset + n) (scrollMax docLen height) ∧
      (scrollOffset = scrollMax docLen height →
        scrollDown scrollOffset docLen height n = (scrollOffset, false) ∧
        ctrlN scrollOffset docLen height n = (scrollOffset, some "EOF")) := by
  refine ⟨rfl, fun h => ?_⟩
  have hmin : min (scrollOffset + n) (scrollMax docLen height) = scrollOffset := by omega
  constructor
  · unfold scrollDown
    simp [hmin]
  · unfold ctrlN scrollDown
    simp [hmin]

/-- C8 witness: with 10 document lines, height 3 and the offset already
at its maximum 7, scrolling down by 5 reports no change and the handler
shows "EOF". -/
theorem C8_scrollDown_pinned_witness :
    (7 : Nat) = scrollMax 10 3 ∧ scrollDown 7 10 3 5 = (7, false) ∧
      ctrlN 7 10 3 5 = (7, some "EOF") :=
  ⟨by decide, ((C8_scrollDown_pinned 7 10 3 5).2 (by decide)).1,
    ((C8_scrollDown_pinned 7 10 3 5).2 (by decide)).2⟩

/-- C9: when the test-write probe at load time fails, the session
degrades instead of terminating: the status message gets the
" (read only)" mark, the editor foreground is set to red (the visual
read-only mark), and the session carries on (`quitFatal` is false). -/
theorem C9_read_only_marking (filename warning : String) (emptyDoc : Bool) :
    loadExisting filename warning emptyDoc false =
      ⟨loadedStatus filename warning emptyDoc ++ " (read only)", Color.red, false⟩ := rfl

/-- C6 counterexample: on a line of eight leading spaces with the cursor
at column 8, typing `}` yields the line `"}"` - the whole indentation is
trimmed away, not exactly one indent level (one level is
`spacesPerTab = 4` columns, which would leave `"    }"`). -/
theorem C6_counterexample :
    (Editor.typeGraphic ⟨[List.replicate 8 ' '], 0, 8⟩ '}').lines = [['}']] ∧
      (Editor.typeGraphic ⟨[List.replicate 8 ' '], 0, 8⟩ '}').lines ≠
        [List.replicate 4 ' ' ++ ['}']] := by
  decide

/-- C6 (amended): in text mode, typing a closing bracket on a line whose
content is whitespace only (and indented: screen column positive) steps
the cursor back, trims all trailing whitespace and then places the
bracket, so the line becomes just the bracket - the entire indentation
is removed; in particular the two-space example yields `["}"]`. -/
theorem C6_dedent_clears_indent (e : Editor) (r : Char)
    (hr : r = '}' ∨ r = ']' ∨ r = ')')
    (hy : e.dataY < e.lines.length)
    (hne : e.currentLine ≠ [])
    (hws : ∀ c ∈ e.currentLine, c.isWhitespace)
    (hx : 0 < e.screenX) :
    (e.typeGraphic r).lines = e.lines.set e.dataY [r] := by
  have htrim : trimLine e.currentLine = [] := by
    unfold trimLine
    rw [List.dropWhile_eq_nil_iff.mpr hws]
    rfl
  have hlead : leadingWhitespace e.currentLine ≠ [] := by
    unfold leadingWhitespace
    rw [List.takeWhile_eq_self_iff.mpr hws]
    exact hne
  have htrimR : trimRightLine e.currentLine = [] := by
    unfold trimRightLine
    rw [List.dropWhile_eq_nil_iff.mpr (fun x hx2 => hws x (List.mem_reverse.mp hx2))]
    rfl
  unfold Editor.typeGraphic
  rw [if_pos ⟨hr, hx, htrim, hlead⟩, Editor.next_lines]
  have hprev : (e.prev).trimRight (e.prev).dataY =
      (⟨e.lines.set e.dataY [], e.dataY, e.dataX - 1⟩ : Editor) := by
    unfold Editor.prev Editor.trimRight Editor.setLineAt
    rw [show e.lines.getD e.dataY [] = e.currentLine from rfl, htrimR]
  rw [hprev]
  unfold Editor.insertRune Editor.setLineAt Editor.currentLine
  rw [getD_set_self _ _ _ _ hy]
  simp [List.set_set]

/-- C6 (amended) witness: the spec's own scenario - Document `["  "]`,
cursor at column 2, typing `}` gives the single line `"}"`. -/
theorem C6_dedent_witness :
    (Editor.typeGraphic ⟨[[' ', ' ']], 0, 2⟩ '}').lines = [[' ', ' ']].set 0 ['}'] :=
  C6_dedent_clears_indent ⟨[[' ', ' ']], 0, 2⟩ '}' (Or.inl rfl) (by decide) (by decide)
    (by decide) (by decide)

/-- C7 counterexample: on Document `["abc"]` with the cursor at `(0,1)`,
two ctrl-k presses leave the Document `["a"]` - the short line has been
truncated, not deleted (deletion would have left the one empty line), so
"applying ctrl-k twice to a short line deletes that line" fails. -/
theorem C7_counterexample :
    Editor.ctrlK (Editor.ctrlK ⟨[['a','b','c']], 0, 1⟩) = ⟨[['a']], 0, 1⟩ ∧
      (Editor.ctrlK (Editor.ctrlK ⟨[['a','b','c']], 0, 1⟩)).lines ≠ [[]] ∧
      (Editor.ctrlK (Editor.ctrlK ⟨[['a','b','c']], 0, 1⟩)).lines ≠ [] := by
  decide

/-- C7 (amended): ctrl-k truncates the current line at `dataX`; when the
truncated remainder right-trims to empty the whole line is deleted by
that same press, and otherwise the line stays (truncated) and any
further ctrl-k press is a no-op - so one press, not two, deletes a line
whose content before the cursor is blank, and repeated presses never
delete a line with non-blank content before the cursor. -/
theorem C7_ctrlK_truncate_or_delete (e : Editor) (hy : e.dataY < e.lines.length)
    (hdoc : ¬ e.emptyDocument) :
    (trimRightLine (e.currentLine.take e.dataX) ≠ [] →
      (e.ctrlK).lines = e.lines.set e.dataY (e.currentLine.take e.dataX) ∧
        Editor.ctrlK (e.ctrlK) = e.ctrlK) ∧
    (trimRightLine (e.currentLine.take e.dataX) = [] →
      (e.ctrlK).lines =
        if (e.lines.set e.dataY (e.currentLine.take e.dataX)).eraseIdx e.dataY = [] then [[]]
        else (e.lines.set e.dataY (e.currentLine.take e.dataX)).eraseIdx e.dataY) := by
  have hcur1 : (e.deleteRestOfLine).currentLine = e.currentLine.take e.dataX := by
    unfold Editor.deleteRestOfLine Editor.setLineAt Editor.currentLine
    exact getD_set_self _ _ _ _ hy
  constructor
  · intro hnb
    have hck : e.ctrlK = e.deleteRestOfLine := by
      unfold Editor.ctrlK
      rw [if_neg hdoc, hcur1, if_neg hnb]
    have he1 : e.deleteRestOfLine =
        (⟨e.lines.set e.dataY (e.currentLine.take e.dataX), e.dataY, e.dataX⟩ : Editor) := rfl
    have ht : e.currentLine.take e.dataX ≠ [] := by
      intro h
      exact hnb (by rw [h]; rfl)
    have hcur2 : (⟨e.lines.set e.dataY (e.currentLine.take e.dataX),
        e.dataY, e.dataX⟩ : Editor).currentLine = e.currentLine.take e.dataX := by
      unfold Editor.currentLine
      exact getD_set_self _ _ _ _ hy
    have hdoc1 : ¬ (⟨e.lines.set e.dataY (e.currentLine.take e.dataX),
        e.dataY, e.dataX⟩ : Editor).emptyDocument := by
      intro hall
      exact ht (hcur2.symm.trans (getD_eq_nil_of_all_nil hall e.dataY))
    have hd1 : (⟨e.lines.set e.dataY (e.currentLine.take e.dataX),
        e.dataY, e.dataX⟩ : Editor).deleteRestOfLine =
        (⟨e.lines.set e.dataY (e.currentLine.take e.dataX), e.dataY, e.dataX⟩ : Editor) := by
      unfold Editor.deleteRestOfLine Editor.setLineAt Editor.currentLine
      rw [getD_set_self _ _ _ _ hy, List.take_take, Nat.min_self, List.set_set]
    refine ⟨by rw [hck, he1], ?_⟩
    rw [hck, he1]
    unfold Editor.ctrlK
    rw [if_neg hdoc1, hd1, hcur2, if_neg hnb]
  · intro heq
    unfold Editor.ctrlK
    rw [if_neg hdoc, hcur1, if_pos heq]
    split <;> rfl

/-- C7 (amended) witness: on Document `["ab"]` with the cursor at
`(0,1)`, ctrl-k truncates the line to `"a"` and a second ctrl-k changes
nothing. -/
theorem C7_ctrlK_witness :
    (Editor.ctrlK ⟨[['a','b']], 0, 1⟩).lines = [['a','b']].set 0 (['a','b'].take 1) ∧
      Editor.ctrlK (Editor.ctrlK ⟨[['a','b']], 0, 1⟩) = Editor.ctrlK ⟨[['a','b']], 0, 1⟩ :=
  (C7_ctrlK_truncate_or_delete ⟨[['a','b']], 0, 1⟩ (by decide) (by decide)).1 (by decide)

/-- C10: in text mode, at a valid cursor position, typing the letter key
`K` inserts two runes - first `'O'`, then `'K'` - and advances the
cursor by two, whereas any other letter key inserts exactly the single
typed rune and advances the cursor by one. -/
theorem C10_K_types_OK (e : Editor) (c : Char)
    (hy : e.dataY < e.lines.length) (hx : e.dataX ≤ e.currentLine.length) :
    (e.typeLetter 'K').lines =
        e.lines.set e.dataY
          (e.currentLine.take e.dataX ++ 'O' :: 'K' :: e.currentLine.drop e.dataX) ∧
      (e.typeLetter 'K').dataY = e.dataY ∧ (e.typeLetter 'K').dataX = e.dataX + 2 ∧
      (c ≠ 'K' →
        (e.typeLetter c).lines =
            e.lines.set e.dataY
              (e.currentLine.take e.dataX ++ c :: e.currentLine.drop e.dataX) ∧
          (e.typeLetter c).dataY = e.dataY ∧ (e.typeLetter c).dataX = e.dataX + 1) := by
  have hO := insertRune_next_spec e 'O' hy hx
  have hy1 : e.dataY < (e.lines.set e.dataY
      (e.currentLine.take e.dataX ++ 'O' :: e.currentLine.drop e.dataX)).length := by
    simpa using hy
  have hcur1 : (⟨e.lines.set e.dataY
      (e.currentLine.take e.dataX ++ 'O' :: e.currentLine.drop e.dataX),
      e.dataY, e.dataX + 1⟩ : Editor).currentLine =
      e.currentLine.take e.dataX ++ 'O' :: e.currentLine.drop e.dataX := by
    unfold Editor.currentLine
    exact getD_set_self _ _ _ _ hy
  have hx1 : (⟨e.lines.set e.dataY
      (e.currentLine.take e.dataX ++ 'O' :: e.currentLine.drop e.dataX),
      e.dataY, e.dataX + 1⟩ : Editor).dataX ≤
      (⟨e.lines.set e.dataY
        (e.currentLine.take e.dataX ++ 'O' :: e.currentLine.drop e.dataX),
        e.dataY, e.dataX + 1⟩ : Editor).currentLine.length := by
    rw [hcur1]
    simp only [List.length_append, List.length_cons, List.length_take_of_le hx]
    omega
  have hK2 := insertRune_next_spec
    (⟨e.lines.set e.dataY
        (e.currentLine.take e.dataX ++ 'O' :: e.currentLine.drop e.dataX),
      e.dataY, e.dataX + 1⟩ : Editor) 'K' hy1 hx1
  rw [hcur1] at hK2
  rw [insert_twice hx 'O' 'K', List.set_set] at hK2
  have hKfull : e.typeLetter 'K' =
      ⟨e.lines.set e.dataY
          (e.currentLine.take e.dataX ++ 'O' :: 'K' :: e.currentLine.drop e.dataX),
        e.dataY, e.dataX + 2⟩ := by
    unfold Editor.typeLetter
    rw [if_pos rfl, hO, hK2]
  refine ⟨by rw [hKfull], by rw [hKfull], by rw [hKfull], fun hc => ?_⟩
  have hcfull : e.typeLetter c =
      ⟨e.lines.set e.dataY
          (e.currentLine.take e.dataX ++ c :: e.currentLine.drop e.dataX),
        e.dataY, e.dataX + 1⟩ := by
    unfold Editor.typeLetter
    rw [if_neg hc, insertRune_next_spec e c hy hx]
  exact ⟨by rw [hcfull], by rw [hcfull], by rw [hcfull]⟩

/-- C10 witness: on Document `["ab"]` with the cursor at `(0,1)`, typing
`K` produces the line `"aOKb"` with the cursor at column 3, and typing
`z` produces `"azb"` with the cursor at column 2. -/
theorem C10_K_types_OK_witness :
    (Editor.typeLetter ⟨[['a','b']], 0, 1⟩ 'K').lines =
        [['a','b']].set 0 (['a','b'].take 1 ++ 'O' :: 'K' :: ['a','b'].drop 1) ∧
      (Editor.typeLetter ⟨[['a','b']], 0, 1⟩ 'K').dataY = 0 ∧
      (Editor.typeLetter ⟨[['a','b']], 0, 1⟩ 'K').dataX = 1 + 2 ∧
      ('z' ≠ 'K' →
        (Editor.typeLetter ⟨[['a','b']], 0, 1⟩ 'z').lines =
            [['a','b']].set 0 (['a','b'].take 1 ++ 'z' :: ['a','b'].drop 1) ∧
          (Editor.typeLetter ⟨[['a','b']], 0, 1⟩ 'z').dataY = 0 ∧
          (Editor.typeLetter ⟨[['a','b']], 0, 1⟩ 'z').dataX = 1 + 1) :=
  C10_K_types_OK ⟨[['a','b']], 0, 1⟩ 'z' (by decide) (by decide)

end Favicon
